import Mathlib

/-!
Shallow embedding of the React client in `src/frontend/src/App.js` of the
image_denoiser repository.  The component `App` keeps seven pieces of state
(`selectedFile`, `originalPreviewUrl`, `denoisedPreviewUrl`, `method`,
`strength`, `isProcessing`, `statusMessage`); its event handlers and effects
are modelled as pure functions on that state, with browser-supplied data
(localStorage content, HTTP responses, freshly created object URLs) passed in
as explicit arguments and side effects (storage writes, issued requests,
revoked object URLs) returned as explicit outputs.
-/

namespace ImageDenoiser

/-- Files are identified abstractly; only identity matters to the client. -/
abbrev FileVal := String

/-- JavaScript values as they can appear after `JSON.parse` and in component
state.  `JSON.parse` yields strings, numbers, booleans, `null`, objects and
arrays; JS numbers are modelled as rationals. -/
inductive JsValue where
  | str (s : String)
  | num (q : ℚ)
  | bool (b : Bool)
  | null
  | obj (fields : List (String × JsValue))
  | arr (elems : List JsValue)

/-- JS property access `v.k`: throws a TypeError on `null`, looks the key up
on an object (a missing key is `undefined`, modelled as `none`), and yields
`undefined` on the remaining primitives and arrays (for the keys the client
reads, which are not built-in properties). -/
def jsGetField : JsValue → String → Except Unit (Option JsValue)
  | .null, _ => .error ()
  | .obj fs, k => .ok ((fs.find? (fun p => p.1 = k)).map Prod.snd)
  | _, _ => .ok none

/-- JS truthiness of a possibly-`undefined` value (`none` is `undefined`):
`undefined`, `null`, `false`, `0` and `""` are falsy, everything else truthy. -/
def jsTruthy : Option JsValue → Bool
  | none => false
  | some (.str s) => !s.isEmpty
  | some (.num q) => decide (q ≠ 0)
  | some (.bool b) => b
  | some .null => false
  | some (.obj _) => true
  | some (.arr _) => true

/-- JS type test `typeof v === "number"` for a possibly-`undefined` value. -/
def typeofIsNumber : Option JsValue → Bool
  | some (.num _) => true
  | _ => false

/-- JS `String(v)` coercion, used by `new Error(msg)` for its `message` and by
`FormData.append` for non-Blob values.  Number rendering is abstracted by the
rational's canonical representation (injective); array coercion is
approximated by the empty string (the client never coerces an array along the
paths verified here). -/
def jsToString : JsValue → String
  | .str s => s
  | .num q => toString q
  | .bool b => if b then "true" else "false"
  | .null => "null"
  | .obj _ => "[object Object]"
  | .arr _ => ""

/-- Number-to-string conversion `strength.toString()` (App.js line 107);
rendering is abstracted by the rational's canonical representation. -/
def numToString (q : ℚ) : String := toString q

/-- The `STORAGE_KEY` constant (App.js line 6). -/
def storageKey : String := "image-denoiser-settings-v1"

/-- The component state held by the seven `useState` hooks
(App.js lines 9-17).  `method` is a `JsValue` because the load-settings
effect stores whatever truthy value it finds in localStorage; the select
handler always stores a string. -/
structure AppState where
  selectedFile : Option FileVal
  originalPreviewUrl : Option String
  denoisedPreviewUrl : Option String
  method : JsValue
  strength : ℚ
  isProcessing : Bool
  statusMessage : String

/-- The initial state: `useState(null)` three times, `useState("cdae")`,
`useState(0.5)`, `useState(false)`, `useState("")` (App.js lines 9-17). -/
def initialState : AppState :=
  { selectedFile := none
    originalPreviewUrl := none
    denoisedPreviewUrl := none
    method := .str "cdae"
    strength := 1/2
    isProcessing := false
    statusMessage := "" }

/-- What the localStorage key can hold when the load effect reads it:
absent (or empty, both falsy, lines 22-23), present but not valid JSON
(`JSON.parse` throws, caught at line 29), or a parsed JSON value. -/
inductive StoredContent where
  | absent
  | malformed
  | value (v : JsValue)

/-- Body of the load-settings effect after a successful `JSON.parse`
(App.js lines 25-28): `if (settings.method) setMethod(settings.method);`
then `if (typeof settings.strength === "number") setStrength(...)`.
Property access on a parsed `null` throws; the thrown error is propagated
to the surrounding `try`. -/
def loadSettingsBody (v : JsValue) (s : AppState) : Except Unit AppState :=
  match jsGetField v "method" with
  | .error e => .error e
  | .ok mfield =>
    let s1 := if jsTruthy mfield then { s with method := mfield.getD .null } else s
    match jsGetField v "strength" with
    | .error e => .error e
    | .ok sfield =>
      match sfield with
      | some (.num q) => .ok { s1 with strength := q }
      | _ => .ok s1

/-- The load-settings effect (App.js lines 20-32): early return when the raw
value is falsy, `try`/`catch` around parsing and the body; any exception is
logged and swallowed, leaving the state unchanged. -/
def loadSettings (c : StoredContent) (s : AppState) : AppState :=
  match c with
  | .absent => s
  | .malformed => s
  | .value v =>
    match loadSettingsBody v s with
    | .ok s' => s'
    | .error _ => s

/-- The settings object `{ method, strength }` built by the save-settings
effect (App.js lines 36-39); `JSON.stringify` is modelled by recording the
JSON value itself. -/
def settingsValue (m : JsValue) (q : ℚ) : JsValue :=
  .obj [("method", m), ("strength", .num q)]

/-- Handler `handleMethodChange` (App.js lines 82-84): stores the select's value. -/
def handleMethodChange (v : String) (s : AppState) : AppState :=
  { s with method := .str v }

/-- Handler `handleStrengthChange` (App.js lines 86-88): stores
`parseFloat(event.target.value)`; the event carries the slider's numeric
value. -/
def handleStrengthChange (q : ℚ) (s : AppState) : AppState :=
  { s with strength := q }

/-- The values offered by the method select element (App.js lines 217-224). -/
def methodOptions : List String := ["cdae", "mean", "median", "wavelet"]

/-- Handler `handleFileChange` (App.js lines 56-80).  `f` is `event.target.files[0]`
(`none` when absent), `freshUrl` the object URL `URL.createObjectURL` would
mint.  Returns the new state and the object URLs revoked. -/
def handleFileChange (f : Option FileVal) (freshUrl : String) (s : AppState) :
    AppState × List String :=
  match f with
  | none => ({ s with selectedFile := none, originalPreviewUrl := none }, [])
  | some file =>
    let revokedOrig := match s.originalPreviewUrl with | some u => [u] | none => []
    let revokedDen := match s.denoisedPreviewUrl with | some u => [u] | none => []
    ({ s with
        selectedFile := some file
        statusMessage := ""
        originalPreviewUrl := some freshUrl
        denoisedPreviewUrl := none },
      revokedOrig ++ revokedDen)

/-- Handler `handleReset` (App.js lines 149-161): revokes any present object URLs,
then nulls the file and both previews and clears the status message. -/
def handleReset (s : AppState) : AppState × List String :=
  let revokedOrig := match s.originalPreviewUrl with | some u => [u] | none => []
  let revokedDen := match s.denoisedPreviewUrl with | some u => [u] | none => []
  ({ s with
      selectedFile := none
      originalPreviewUrl := none
      denoisedPreviewUrl := none
      statusMessage := "" },
    revokedOrig ++ revokedDen)

/-- A value appended to the multipart form: the selected file, or a value
coerced to a string. -/
inductive FormValue where
  | fileVal (f : FileVal)
  | strVal (s : String)
deriving DecidableEq

/-- The multipart form body built at App.js lines 104-107. -/
structure SentRequest where
  fields : List (String × FormValue)
deriving DecidableEq

/-- An HTTP response as the client observes it: its status code, and the
result of `response.json()` (which can reject on a non-JSON body). -/
structure Response where
  status : Nat
  jsonBody : Except Unit JsValue

/-- Predicate `response.ok`: status in the inclusive range 200-299. -/
def respOk (r : Response) : Bool :=
  decide (200 ≤ r.status ∧ r.status < 300)

/-- Environment of one denoise round trip: the response the fetch resolves
to, and the object URL minted for the response blob on success. -/
structure DenoiseEnv where
  resp : Response
  freshUrl : String

/-- The error-message selection on a non-ok response (App.js lines 114-124):
start from `"Server error: <status>"`, and when the body parses as JSON and
`data && data.error` is truthy, use `data.error` instead.  The selected value
becomes the argument of `new Error(...)`. -/
def selectErrMsg (status : Nat) (body : Except Unit JsValue) : JsValue :=
  let dflt := JsValue.str ("Server error: " ++ toString status)
  match body with
  | .error _ => dflt
  | .ok data =>
    if jsTruthy (some data) then
      match jsGetField data "error" with
      | .ok f => if jsTruthy f then f.getD .null else dflt
      | .error _ => dflt
    else dflt

/-- The synchronous prefix of `handleDenoise` (App.js lines 90-112): bail out
with a message when no file is selected; otherwise raise `isProcessing`, set
the status to `"Processing..."`, revoke and clear any previous result URL,
and build the three-field form body handed to `fetch`.  Returns the new
state, the issued request (if any) and the revoked URLs. -/
def handleDenoiseStart (s : AppState) :
    AppState × Option SentRequest × List String :=
  match s.selectedFile with
  | none => ({ s with statusMessage := "Please upload an image first." }, none, [])
  | some f =>
    let revokedDen := match s.denoisedPreviewUrl with | some u => [u] | none => []
    let req : SentRequest :=
      { fields := [("file", .fileVal f),
                   ("method", .strVal (jsToString s.method)),
                   ("strength", .strVal (numToString s.strength))] }
    ({ s with
        isProcessing := true
        statusMessage := "Processing..."
        denoisedPreviewUrl := none },
      some req, revokedDen)

/-- The continuation of `handleDenoise` once the fetch resolves
(App.js lines 114-136): on an ok response, install the blob URL and report
completion; otherwise the selected error message is thrown, caught by the
outer `catch`, and displayed as `"Error: " + error.message`.  The `finally`
clause lowers `isProcessing` on every path. -/
def handleDenoiseFinish (env : DenoiseEnv) (s : AppState) : AppState :=
  if respOk env.resp then
    { s with
        denoisedPreviewUrl := some env.freshUrl
        statusMessage := "Denoising completed."
        isProcessing := false }
  else
    { s with
        statusMessage :=
          "Error: " ++ jsToString (selectErrMsg env.resp.status env.resp.jsonBody)
        isProcessing := false }

/-- Handler `handleDenoise` (App.js lines 90-137) run to completion: the synchronous
prefix, and — when a request was issued — the response handling.  A total
function: every exception raised inside the handler is caught by its own
`try`/`catch`/`finally`. -/
def handleDenoise (env : DenoiseEnv) (s : AppState) :
    AppState × Option SentRequest × List String :=
  let r := handleDenoiseStart s
  match r.2.1 with
  | none => r
  | some _ => (handleDenoiseFinish env r.1, r.2.1, r.2.2)

end ImageDenoiser

namespace ImageDenoiser

/-- The discrete events the UI can deliver to the component, each carrying
the browser-supplied data its handler consumes.  `methodSelect` values come
from the select's options and `strengthSlide` values from the range input
(min 0, max 1); those DOM constraints appear as hypotheses of the theorems
that need them. -/
inductive UiEvent where
  | mount (c : StoredContent)
  | fileSelect (f : Option FileVal) (freshUrl : String)
  | methodSelect (v : String)
  | strengthSlide (q : ℚ)
  | denoiseClick (env : DenoiseEnv)
  | downloadClick
  | resetClick

/-- The observable side effects of one event: localStorage writes
(key, stored JSON value), requests issued by `fetch`, and revoked object
URLs. -/
structure StepOut where
  storageWrites : List (String × JsValue)
  sentRequests : List SentRequest
  revokedUrls : List String

/-- One event processed by the component, with the effects it produces.  The
save-settings effect (App.js lines 35-41) runs after every change of
`method` or `strength` — after the two settings handlers and, with the
values the load effect settles on, after mount — and is the only storage
write in the program.  `downloadClick` touches no component state and no
storage. -/
def uiStep : UiEvent → AppState → AppState × StepOut
  | .mount c, s =>
    let s' := loadSettings c s
    (s', { storageWrites := [(storageKey, settingsValue s'.method s'.strength)]
           sentRequests := []
           revokedUrls := [] })
  | .fileSelect f freshUrl, s =>
    let r := handleFileChange f freshUrl s
    (r.1, { storageWrites := [], sentRequests := [], revokedUrls := r.2 })
  | .methodSelect v, s =>
    let s' := handleMethodChange v s
    (s', { storageWrites := [(storageKey, settingsValue s'.method s'.strength)]
           sentRequests := []
           revokedUrls := [] })
  | .strengthSlide q, s =>
    let s' := handleStrengthChange q s
    (s', { storageWrites := [(storageKey, settingsValue s'.method s'.strength)]
           sentRequests := []
           revokedUrls := [] })
  | .denoiseClick env, s =>
    let r := handleDenoise env s
    (r.1, { storageWrites := []
            sentRequests := r.2.1.toList
            revokedUrls := r.2.2 })
  | .downloadClick, s => (s, { storageWrites := [], sentRequests := [], revokedUrls := [] })
  | .resetClick, s =>
    let r := handleReset s
    (r.1, { storageWrites := [], sentRequests := [], revokedUrls := r.2 })

/-!
Small-step view of the request lifecycle, for the single-in-flight property.
`handleDenoise` is split at its `await fetch` suspension point: a click runs
the synchronous prefix and issues at most one request; a separate completion
step runs the response handling.  `inFlight` counts the requests issued and
not yet completed.
-/

/-- The component state together with the number of outstanding denoise
requests. -/
structure Sys where
  app : AppState
  inFlight : Nat

/-- The initial system: fresh component, nothing in flight. -/
def sysInit : Sys := { app := initialState, inFlight := 0 }

/-- One small step of the UI.  `denoiseClickStep` requires
`isProcessing = false` because the Denoise button carries
`disabled={isProcessing}` (App.js line 247): a disabled button cannot fire
its onClick.  `denoiseComplete` resumes a pending `handleDenoise` after its
fetch resolved, so it requires an outstanding request. -/
inductive SysStep : Sys → Sys → Prop where
  | mountStep (c : StoredContent) (σ : Sys) :
      SysStep σ { app := loadSettings c σ.app, inFlight := σ.inFlight }
  | fileSelectStep (f : Option FileVal) (freshUrl : String) (σ : Sys) :
      SysStep σ { app := (handleFileChange f freshUrl σ.app).1, inFlight := σ.inFlight }
  | methodSelectStep (v : String) (σ : Sys) (hv : v ∈ methodOptions) :
      SysStep σ { app := handleMethodChange v σ.app, inFlight := σ.inFlight }
  | strengthSlideStep (q : ℚ) (σ : Sys) (h0 : 0 ≤ q) (h1 : q ≤ 1) :
      SysStep σ { app := handleStrengthChange q σ.app, inFlight := σ.inFlight }
  | denoiseClickStep (σ : Sys) (hEnabled : σ.app.isProcessing = false) :
      SysStep σ { app := (handleDenoiseStart σ.app).1,
                  inFlight := σ.inFlight +
                    (if (handleDenoiseStart σ.app).2.1.isSome then 1 else 0) }
  | denoiseComplete (env : DenoiseEnv) (σ : Sys) (hPending : 0 < σ.inFlight) :
      SysStep σ { app := handleDenoiseFinish env σ.app, inFlight := σ.inFlight - 1 }
  | resetClickStep (σ : Sys) :
      SysStep σ { app := (handleReset σ.app).1, inFlight := σ.inFlight }

/-- The states the UI can reach from the initial state. -/
inductive Reachable : Sys → Prop where
  | init : Reachable sysInit
  | step {σ σ' : Sys} : Reachable σ → SysStep σ σ' → Reachable σ'

/-- The single-in-flight invariant: never more than one outstanding request,
and an outstanding request is always flagged by `isProcessing`. -/
def singleFlightInv (σ : Sys) : Prop :=
  σ.inFlight ≤ 1 ∧ (σ.inFlight = 1 → σ.app.isProcessing = true)

/-- The strength invariant claimed by the spec. -/
def strengthInv (s : AppState) : Prop :=
  0 ≤ s.strength ∧ s.strength ≤ 1

/-- The method invariant claimed by the spec: the state holds one of the four
recognized identifiers. -/
def methodInv (s : AppState) : Prop :=
  ∃ m, s.method = JsValue.str m ∧ m ∈ methodOptions

/-- A stored settings blob whose `strength` field, when it is a number, lies
in [0,1]; vacuous for anything else the load effect ignores or rejects. -/
def storedStrengthOk : StoredContent → Prop
  | .value v =>
    match jsGetField v "strength" with
    | .ok (some (.num q)) => 0 ≤ q ∧ q ≤ 1
    | _ => True
  | _ => True

/-- A stored settings blob whose `method` field, when truthy, is one of the
four recognized identifiers; vacuous for anything else. -/
def storedMethodOk : StoredContent → Prop
  | .value v =>
    match jsGetField v "method" with
    | .ok mf => jsTruthy mf = true → ∃ m, mf = some (JsValue.str m) ∧ m ∈ methodOptions
    | .error _ => True
  | _ => True

end ImageDenoiser

namespace ImageDenoiser

/-! Helper lemmas shared by the claim theorems. -/

/-- Property access either throws (exactly on `null`) or yields a value. -/
lemma jsGetField_cases (v : JsValue) (k : String) :
    (v = .null ∧ jsGetField v k = .error ()) ∨ (∃ o, jsGetField v k = .ok o) := by
  cases v <;> simp [jsGetField]

/-- Loading a stored `null`: the property access throws, the `catch` keeps
the state. -/
lemma loadSettings_null (s : AppState) : loadSettings (.value .null) s = s := rfl

/-- Characterization of the load effect on a parsed non-`null` value: the
method is replaced exactly when the stored `method` is truthy, the strength
exactly when the stored `strength` is a number, and nothing else changes. -/
lemma loadSettings_value_char (v : JsValue) (s : AppState) (mf sf : Option JsValue)
    (hm : jsGetField v "method" = .ok mf) (hsf : jsGetField v "strength" = .ok sf) :
    loadSettings (.value v) s =
      { s with
          method := if jsTruthy mf then mf.getD .null else s.method
          strength := match sf with | some (.num q) => q | _ => s.strength } := by
  simp only [loadSettings, loadSettingsBody, hm, hsf]
  cases sf with
  | none => by_cases ht : jsTruthy mf = true <;> simp [ht]
  | some val => cases val <;> by_cases ht : jsTruthy mf = true <;> simp [ht]

/-- The load effect touches only `method` and `strength`. -/
lemma loadSettings_frame (c : StoredContent) (s : AppState) :
    (loadSettings c s).selectedFile = s.selectedFile ∧
    (loadSettings c s).originalPreviewUrl = s.originalPreviewUrl ∧
    (loadSettings c s).denoisedPreviewUrl = s.denoisedPreviewUrl ∧
    (loadSettings c s).isProcessing = s.isProcessing ∧
    (loadSettings c s).statusMessage = s.statusMessage := by
  cases c with
  | absent => simp [loadSettings]
  | malformed => simp [loadSettings]
  | value v =>
    rcases jsGetField_cases v "method" with ⟨hnull, _⟩ | ⟨mf, hm⟩
    · subst hnull; simp [loadSettings_null]
    · rcases jsGetField_cases v "strength" with ⟨hnull, _⟩ | ⟨sf, hsf⟩
      · subst hnull; simp [jsGetField] at hm
      · rw [loadSettings_value_char v s mf sf hm hsf]
        exact ⟨rfl, rfl, rfl, rfl, rfl⟩

/-- When the click issues a request, `isProcessing` has been raised; when it
does not, `isProcessing` is untouched. -/
lemma handleDenoiseStart_isProcessing (s : AppState) :
    ((handleDenoiseStart s).2.1.isSome = true →
      (handleDenoiseStart s).1.isProcessing = true)
    ∧ ((handleDenoiseStart s).2.1.isSome = false →
      (handleDenoiseStart s).1.isProcessing = s.isProcessing) := by
  cases hsel : s.selectedFile <;> simp [handleDenoiseStart, hsel]

/-- File selection touches neither `method` nor `strength` nor
`isProcessing`. -/
lemma handleFileChange_frame (f : Option FileVal) (u : String) (s : AppState) :
    (handleFileChange f u s).1.method = s.method ∧
    (handleFileChange f u s).1.strength = s.strength ∧
    (handleFileChange f u s).1.isProcessing = s.isProcessing := by
  cases f <;> simp [handleFileChange]

/-- The request built by `handleDenoise` when a file is selected. -/
lemma handleDenoise_req (s : AppState) (env : DenoiseEnv) (f : FileVal)
    (h : s.selectedFile = some f) :
    (handleDenoise env s).2.1 =
      some { fields := [("file", .fileVal f),
                        ("method", .strVal (jsToString s.method)),
                        ("strength", .strVal (numToString s.strength))] } := by
  simp [handleDenoise, handleDenoiseStart, h]

/-- No request is issued without a selected file. -/
lemma handleDenoise_req_none (s : AppState) (env : DenoiseEnv)
    (h : s.selectedFile = none) : (handleDenoise env s).2.1 = none := by
  simp [handleDenoise, handleDenoiseStart, h]

/-- On a non-ok response the displayed status is the selected error message
with the handler's `"Error: "` prefix. -/
lemma handleDenoise_nonok_status (s : AppState) (env : DenoiseEnv) (f : FileVal)
    (hf : s.selectedFile = some f) (hok : respOk env.resp = false) :
    (handleDenoise env s).1.statusMessage =
      "Error: " ++ jsToString (selectErrMsg env.resp.status env.resp.jsonBody) := by
  simp [handleDenoise, handleDenoiseStart, hf, handleDenoiseFinish, hok]

/-- One step of the UI preserves the single-in-flight invariant. -/
lemma sysStep_preserves (σ σ' : Sys) (hstep : SysStep σ σ')
    (hinv : singleFlightInv σ) : singleFlightInv σ' := by
  obtain ⟨ih1, ih2⟩ := hinv
  cases hstep with
  | mountStep c =>
    refine ⟨ih1, fun h1 => ?_⟩
    show (loadSettings c σ.app).isProcessing = true
    rw [(loadSettings_frame c σ.app).2.2.2.1]
    exact ih2 h1
  | fileSelectStep f u =>
    refine ⟨ih1, fun h1 => ?_⟩
    show (handleFileChange f u σ.app).1.isProcessing = true
    rw [(handleFileChange_frame f u σ.app).2.2]
    exact ih2 h1
  | methodSelectStep v _ hv => exact ⟨ih1, fun h1 => ih2 h1⟩
  | strengthSlideStep q _ h0 h1 => exact ⟨ih1, fun hq => ih2 hq⟩
  | denoiseClickStep _ hEnabled =>
    have h0 : σ.inFlight = 0 := by
      rcases Nat.eq_or_lt_of_le ih1 with h | h
      · have hproc := ih2 h
        rw [hEnabled] at hproc
        exact absurd hproc (by decide)
      · omega
    by_cases hs : (handleDenoiseStart σ.app).2.1.isSome = true
    · refine ⟨?_, fun _ => ?_⟩
      · show (σ.inFlight + if (handleDenoiseStart σ.app).2.1.isSome = true then 1 else 0) ≤ 1
        simp [h0, hs]
      · show (handleDenoiseStart σ.app).1.isProcessing = true
        exact (handleDenoiseStart_isProcessing σ.app).1 hs
    · refine ⟨?_, fun h1 => ?_⟩
      · show (σ.inFlight + if (handleDenoiseStart σ.app).2.1.isSome = true then 1 else 0) ≤ 1
        simp [h0, hs]
      · exfalso
        have h1' : (σ.inFlight + if (handleDenoiseStart σ.app).2.1.isSome = true then 1 else 0) = 1 := h1
        simp [h0, hs] at h1'
  | denoiseComplete env _ hPending =>
    have hone : σ.inFlight = 1 := le_antisymm ih1 hPending
    refine ⟨?_, fun h1 => ?_⟩
    · show σ.inFlight - 1 ≤ 1
      omega
    · exfalso
      have h1' : σ.inFlight - 1 = 1 := h1
      omega
  | resetClickStep => exact ⟨ih1, fun h1 => ih2 h1⟩

/-- The single-in-flight invariant holds in every reachable state. -/
lemma reachable_singleFlightInv (σ : Sys) (h : Reachable σ) : singleFlightInv σ := by
  induction h with
  | init => exact ⟨by decide, fun h1 => by simp [sysInit] at h1⟩
  | step hr hstep ih => exact sysStep_preserves _ _ hstep ih

end ImageDenoiser

namespace ImageDenoiser

/-- A state with a file selected, used by concrete witnesses. -/
def exampleFileState : AppState := { initialState with selectedFile := some "photo.png" }

/-- A failed response (HTTP 400) carrying the JSON body
`\x7b"error": "Upload failed"\x7d`, used by concrete witnesses. -/
def exampleErrEnv : DenoiseEnv :=
  { resp := { status := 400, jsonBody := .ok (.obj [("error", .str "Upload failed")]) }
    freshUrl := "blob:denoised-1" }

/-- Claim C1, counterexample: a denoise request completing with status 400
and JSON body whose `error` field is the non-empty message
`"Upload failed"` leaves the client displaying `"Error: Upload failed"`,
not the returned message verbatim. -/
theorem C1_counterexample :
    respOk exampleErrEnv.resp = false
    ∧ exampleErrEnv.resp.jsonBody = .ok (.obj [("error", .str "Upload failed")])
    ∧ (handleDenoise exampleErrEnv exampleFileState).1.statusMessage ≠ "Upload failed"
    ∧ (handleDenoise exampleErrEnv exampleFileState).1.statusMessage
        = "Error: Upload failed" := by
  exact ⟨rfl, rfl, by decide, rfl⟩

/-- Claim C1 (amended): for every denoise request that completes with a
non-2xx response whose JSON body contains a non-empty string `error` field,
the status message the client displays is that error message with the fixed
prefix `"Error: "` prepended (App.js line 133), not the message verbatim. -/
theorem C1_error_displayed_prefixed (s : AppState) (env : DenoiseEnv) (f : FileVal)
    (d : JsValue) (m : String)
    (hf : s.selectedFile = some f) (hok : respOk env.resp = false)
    (hbody : env.resp.jsonBody = .ok d)
    (herr : jsGetField d "error" = .ok (some (.str m))) (hne : m ≠ "") :
    (handleDenoise env s).1.statusMessage = "Error: " ++ m := by
  rw [handleDenoise_nonok_status s env f hf hok, hbody]
  cases d with
  | str a => simp [jsGetField] at herr
  | num a => simp [jsGetField] at herr
  | bool a => simp [jsGetField] at herr
  | null => simp [jsGetField] at herr
  | arr a => simp [jsGetField] at herr
  | obj fs =>
    have hne' : m.isEmpty = false := by
      cases hm : m.isEmpty
      · rfl
      · exact absurd ((String.isEmpty_iff m).mp hm) hne
    simp [selectErrMsg, jsTruthy, herr, hne', jsToString]

/-- Claim C1, witness of the amended theorem at the concrete failing
response. -/
theorem C1_witness :
    (handleDenoise exampleErrEnv exampleFileState).1.statusMessage
      = "Error: " ++ "Upload failed" :=
  C1_error_displayed_prefixed exampleFileState exampleErrEnv "photo.png"
    (.obj [("error", .str "Upload failed")]) "Upload failed"
    rfl rfl rfl rfl (by decide)

/-- Claim C6: for every denoise invocation with a selected file, the
multipart body contains exactly the three fields `file` (the selected file),
`method`, and `strength` (the strength converted to a string), in that
order, for every method — the `strength` field is never omitted. -/
theorem C6_form_fields (s : AppState) (env : DenoiseEnv) (f : FileVal)
    (h : s.selectedFile = some f) :
    (handleDenoise env s).2.1 =
      some { fields := [("file", .fileVal f),
                        ("method", .strVal (jsToString s.method)),
                        ("strength", .strVal (numToString s.strength))] } :=
  handleDenoise_req s env f h

/-- Claim C6, witness at a concrete state with the default method `cdae`. -/
theorem C6_witness :
    (handleDenoise exampleErrEnv exampleFileState).2.1 =
      some { fields := [("file", .fileVal "photo.png"),
                        ("method", .strVal "cdae"),
                        ("strength", .strVal (numToString (1/2)))] } :=
  C6_form_fields exampleFileState exampleErrEnv "photo.png" rfl

/-- Claim C8: invoking `handleDenoise` with no selected file sets the status
message to `"Please upload an image first."` and returns — no request is
sent, no URL revoked, and every other state field is unchanged. -/
theorem C8_no_file_early_return (s : AppState) (env : DenoiseEnv)
    (h : s.selectedFile = none) :
    handleDenoise env s =
      ({ s with statusMessage := "Please upload an image first." }, none, []) := by
  simp [handleDenoise, handleDenoiseStart, h]

/-- Claim C8, witness at the initial state (no file selected). -/
theorem C8_witness :
    handleDenoise exampleErrEnv initialState =
      ({ initialState with statusMessage := "Please upload an image first." },
       none, []) :=
  C8_no_file_early_return initialState exampleErrEnv rfl

/-- Claim C10: `handleReset` revokes exactly the non-null preview URLs,
nulls the file and both previews and clears the status message, and leaves
`method`, `strength` and `isProcessing` unchanged (the `{ s with ... }`
update fixes every unmentioned field). -/
theorem C10_reset_frame (s : AppState) :
    handleReset s =
      ({ s with selectedFile := none, originalPreviewUrl := none,
                denoisedPreviewUrl := none, statusMessage := "" },
       s.originalPreviewUrl.toList ++ s.denoisedPreviewUrl.toList)
    ∧ (handleReset s).1.method = s.method
    ∧ (handleReset s).1.strength = s.strength
    ∧ (handleReset s).1.isProcessing = s.isProcessing := by
  refine ⟨?_, rfl, rfl, rfl⟩
  cases ho : s.originalPreviewUrl <;> cases hd : s.denoisedPreviewUrl <;>
    simp [handleReset, ho, hd]

end ImageDenoiser

namespace ImageDenoiser

/-- Claim C7: on a non-2xx response the client inspects only the `error`
field of the JSON body — a parsed body with a truthy `error` field supplies
the message, and a non-JSON body, a falsy parsed value, or a missing/falsy
`error` field all fall back to `"Server error: <status>"`.  The handler is a
total function (its `try`/`catch`/`finally` swallows every exception), and
the selected message reaches the display through the `"Error: "` prefix of
the outer catch. -/
theorem C7_error_field_only (s : AppState) (env : DenoiseEnv) (f : FileVal)
    (hf : s.selectedFile = some f) (hok : respOk env.resp = false) :
    ((handleDenoise env s).1.statusMessage =
        "Error: " ++ jsToString (selectErrMsg env.resp.status env.resp.jsonBody))
    ∧ (∀ e, env.resp.jsonBody = .error e →
        selectErrMsg env.resp.status env.resp.jsonBody
          = .str ("Server error: " ++ toString env.resp.status))
    ∧ (∀ d v, env.resp.jsonBody = .ok d → jsTruthy (some d) = true →
        jsGetField d "error" = .ok (some v) → jsTruthy (some v) = true →
        selectErrMsg env.resp.status env.resp.jsonBody = v)
    ∧ (∀ d, env.resp.jsonBody = .ok d →
        (jsTruthy (some d) = false ∨
          ∃ mf, jsGetField d "error" = .ok mf ∧ jsTruthy mf = false) →
        selectErrMsg env.resp.status env.resp.jsonBody
          = .str ("Server error: " ++ toString env.resp.status)) := by
  refine ⟨handleDenoise_nonok_status s env f hf hok, ?_, ?_, ?_⟩
  · intro e he
    simp [selectErrMsg, he]
  · intro d v hd htd hg htv
    simp [selectErrMsg, hd, htd, hg, htv]
  · intro d hd hcase
    rcases hcase with htd | ⟨mf, hg, hmf⟩
    · simp [selectErrMsg, hd, htd]
    · by_cases htd : jsTruthy (some d) = true
      · simp [selectErrMsg, hd, htd, hg, hmf]
      · simp [selectErrMsg, hd, htd]

/-- Claim C7, witness at the concrete failing response. -/
theorem C7_witness :
    (handleDenoise exampleErrEnv exampleFileState).1.statusMessage =
      "Error: " ++ jsToString (selectErrMsg exampleErrEnv.resp.status
        exampleErrEnv.resp.jsonBody) :=
  (C7_error_field_only exampleFileState exampleErrEnv "photo.png" rfl rfl).1

/-- A stored settings blob whose numeric `strength` lies outside [0,1]. -/
def badStrengthStored : StoredContent := .value (.obj [("strength", .num 2)])

/-- A stored settings blob whose truthy `method` is not a recognized
identifier. -/
def badMethodStored : StoredContent := .value (.obj [("method", .str "bogus")])

/-- Claim C3, counterexample: the load-from-localStorage effect accepts any
stored number without a range check, so from the default state (which
satisfies 0 ≤ strength ≤ 1) loading a stored strength of 2 yields
strength = 2, violating the claimed invariant. -/
theorem C3_counterexample :
    strengthInv initialState
    ∧ (loadSettings badStrengthStored initialState).strength = 2
    ∧ ¬ strengthInv (loadSettings badStrengthStored initialState) := by
  refine ⟨by norm_num [strengthInv, initialState], rfl, fun h => ?_⟩
  have he : (loadSettings badStrengthStored initialState).strength = 2 := rfl
  rw [strengthInv, he] at h
  exact absurd h.2 (by norm_num)

/-- Claim C3 (amended): the slider change handler preserves
0 ≤ strength ≤ 1 (its event values are constrained to [0,1] by the range
input), and the strength sent with a denoise request is the current state's
strength; the load-from-localStorage effect, however, installs any stored
number unchecked, so it preserves the invariant only when the stored numeric
strength itself lies in [0,1]. -/
theorem C3_strength_range (s : AppState) (q : ℚ) (c : StoredContent)
    (env : DenoiseEnv) (hs : strengthInv s) (h0 : 0 ≤ q) (h1 : q ≤ 1)
    (hc : storedStrengthOk c) :
    strengthInv (handleStrengthChange q s)
    ∧ strengthInv (loadSettings c s)
    ∧ (∀ r, (handleDenoise env s).2.1 = some r →
        ("strength", FormValue.strVal (numToString s.strength)) ∈ r.fields) := by
  refine ⟨⟨h0, h1⟩, ?_, ?_⟩
  · cases c with
    | absent => exact hs
    | malformed => exact hs
    | value v =>
      rcases jsGetField_cases v "method" with ⟨hnull, _⟩ | ⟨mf, hm⟩
      · subst hnull; rw [loadSettings_null]; exact hs
      · rcases jsGetField_cases v "strength" with ⟨hnull, _⟩ | ⟨sf, hsf⟩
        · subst hnull; simp [jsGetField] at hm
        · rw [loadSettings_value_char v s mf sf hm hsf]
          simp only [storedStrengthOk, hsf] at hc
          cases sf with
          | none => exact hs
          | some val =>
            cases val with
            | num q2 => exact hc
            | str a => exact hs
            | bool b => exact hs
            | null => exact hs
            | obj l => exact hs
            | arr l => exact hs
  · intro r hr
    cases hsel : s.selectedFile with
    | none => rw [handleDenoise_req_none s env hsel] at hr; cases hr
    | some f =>
      rw [handleDenoise_req s env f hsel] at hr
      injection hr with hr'
      subst hr'
      simp

/-- Claim C3, witness of the amended theorem: a slider event at 3/4 keeps
the invariant. -/
theorem C3_witness : strengthInv (handleStrengthChange (3/4) initialState) :=
  (C3_strength_range initialState (3/4) .absent exampleErrEnv
    (by norm_num [strengthInv, initialState]) (by norm_num) (by norm_num)
    True.intro).1

/-- Claim C4, counterexample: the load-from-localStorage effect installs any
truthy stored `method`, so loading the stored method `"bogus"` leaves the
state's method outside the four recognized identifiers. -/
theorem C4_counterexample :
    (loadSettings badMethodStored initialState).method = JsValue.str "bogus"
    ∧ ¬ methodInv (loadSettings badMethodStored initialState) := by
  refine ⟨rfl, fun h => ?_⟩
  obtain ⟨m, hm, hmem⟩ := h
  have hm' : JsValue.str "bogus" = JsValue.str m := hm
  injection hm' with h2
  subst h2
  exact absurd hmem (by decide)

/-- Claim C4 (amended): the select change handler (whose options are the
four identifiers) preserves membership of `method` in
`cdae|mean|median|wavelet`, and the method sent with a denoise request is
one of the four whenever the state satisfies the invariant; the
load-from-localStorage effect, however, installs any truthy stored value, so
it preserves the invariant only when the stored truthy `method` is itself
one of the four identifiers. -/
theorem C4_method_options (s : AppState) (v : String) (c : StoredContent)
    (env : DenoiseEnv) (hv : v ∈ methodOptions) (hc : storedMethodOk c)
    (hs : methodInv s) :
    methodInv (handleMethodChange v s)
    ∧ methodInv (loadSettings c s)
    ∧ (∀ r, (handleDenoise env s).2.1 = some r →
        ∃ m, ("method", FormValue.strVal m) ∈ r.fields ∧ m ∈ methodOptions) := by
  refine ⟨⟨v, rfl, hv⟩, ?_, ?_⟩
  · cases c with
    | absent => exact hs
    | malformed => exact hs
    | value w =>
      rcases jsGetField_cases w "method" with ⟨hnull, _⟩ | ⟨mf, hm⟩
      · subst hnull; rw [loadSettings_null]; exact hs
      · rcases jsGetField_cases w "strength" with ⟨hnull, _⟩ | ⟨sf, hsf⟩
        · subst hnull; simp [jsGetField] at hm
        · rw [loadSettings_value_char w s mf sf hm hsf]
          simp only [storedMethodOk, hm] at hc
          by_cases ht : jsTruthy mf = true
          · rcases hc ht with ⟨m, hmf, hmem⟩
            subst hmf
            refine ⟨m, ?_, hmem⟩
            cases sf with
            | none => simp [ht]
            | some val => cases val <;> simp [ht]
          · obtain ⟨m, hm', hmem⟩ := hs
            refine ⟨m, ?_, hmem⟩
            cases sf with
            | none => simp [ht]; exact hm'
            | some val => cases val <;> simp [ht] <;> exact hm'
  · intro r hr
    cases hsel : s.selectedFile with
    | none => rw [handleDenoise_req_none s env hsel] at hr; cases hr
    | some f =>
      rw [handleDenoise_req s env f hsel] at hr
      injection hr with hr'
      subst hr'
      obtain ⟨m, hm', hmem⟩ := hs
      refine ⟨m, ?_, hmem⟩
      rw [hm']
      simp [jsToString]

/-- Claim C4, witness of the amended theorem: a select event for `median`
keeps the invariant. -/
theorem C4_witness : methodInv (handleMethodChange "median" initialState) :=
  (C4_method_options initialState "median" .absent exampleErrEnv (by decide)
    True.intro ⟨"cdae", rfl, by decide⟩).1

end ImageDenoiser

namespace ImageDenoiser

/-- A stored settings blob with a falsy `method` and a non-numeric
`strength`, used by the C9 witness. -/
def badTypesStored : StoredContent :=
  .value (.obj [("method", .bool false), ("strength", .str "x")])

/-- Claim C9: loading settings is total and exception-safe — an absent or
malformed stored value leaves the state unchanged, any exception of the body
(property access on a stored `null`) is caught and leaves the state
unchanged, the default method is kept whenever the stored `method` is falsy,
and the default strength is kept whenever the stored `strength` is not of
type number.  (`loadSettings` is a total Lean function: no exception
escapes the effect on any input.) -/
theorem C9_load_exception_safe (c : StoredContent) (s : AppState) :
    ((c = .absent ∨ c = .malformed) → loadSettings c s = s)
    ∧ (∀ v, c = .value v → loadSettingsBody v s = .error () → loadSettings c s = s)
    ∧ (∀ v mf, c = .value v → jsGetField v "method" = .ok mf →
        jsTruthy mf = false → (loadSettings c s).method = s.method)
    ∧ (∀ v sf, c = .value v → jsGetField v "strength" = .ok sf →
        typeofIsNumber sf = false → (loadSettings c s).strength = s.strength) := by
  refine ⟨?_, ?_, ?_, ?_⟩
  · rintro (rfl | rfl) <;> rfl
  · rintro v rfl herr
    simp [loadSettings, herr]
  · rintro v mf rfl hm ht
    rcases jsGetField_cases v "strength" with ⟨hnull, _⟩ | ⟨sf, hsf⟩
    · subst hnull; simp [jsGetField] at hm
    · rw [loadSettings_value_char v s mf sf hm hsf]
      cases sf with
      | none => simp [ht]
      | some val => cases val <;> simp [ht]
  · rintro v sf rfl hsf hn
    rcases jsGetField_cases v "method" with ⟨hnull, _⟩ | ⟨mf, hm⟩
    · subst hnull; simp [jsGetField] at hsf
    · rw [loadSettings_value_char v s mf sf hm hsf]
      cases sf with
      | none => rfl
      | some val =>
        cases val with
        | num q => simp [typeofIsNumber] at hn
        | str a => rfl
        | bool b => rfl
        | null => rfl
        | obj l => rfl
        | arr l => rfl

/-- Claim C9, witness: a stored blob with falsy method and string strength
keeps the default method. -/
theorem C9_witness :
    (loadSettings badTypesStored initialState).method = initialState.method :=
  (C9_load_exception_safe badTypesStored initialState).2.2.1
    (.obj [("method", .bool false), ("strength", .str "x")])
    (some (.bool false)) rfl rfl rfl

/-- Claim C5: every localStorage write of any UI event goes to the key
`"image-denoiser-settings-v1"` and stores exactly the two-field object
`\x7bmethod, strength\x7d` built from the resulting state, and the two
settings-changing events each produce exactly one such write with the
changed values. -/
theorem C5_settings_persistence (e : UiEvent) (s : AppState) :
    (∀ w ∈ (uiStep e s).2.storageWrites,
        w.1 = storageKey ∧
        w.2 = settingsValue (uiStep e s).1.method (uiStep e s).1.strength)
    ∧ (∀ v, e = .methodSelect v →
        (uiStep e s).2.storageWrites =
          [(storageKey, settingsValue (JsValue.str v) s.strength)])
    ∧ (∀ q, e = .strengthSlide q →
        (uiStep e s).2.storageWrites =
          [(storageKey, settingsValue s.method q)]) := by
  refine ⟨?_, ?_, ?_⟩
  · intro w hw
    cases e with
    | mount c =>
      simp [uiStep] at hw
      subst hw
      exact ⟨rfl, rfl⟩
    | fileSelect f u => simp [uiStep] at hw
    | methodSelect v =>
      simp [uiStep] at hw
      subst hw
      exact ⟨rfl, rfl⟩
    | strengthSlide q =>
      simp [uiStep] at hw
      subst hw
      exact ⟨rfl, rfl⟩
    | denoiseClick env => simp [uiStep] at hw
    | downloadClick => simp [uiStep] at hw
    | resetClick => simp [uiStep] at hw
  · rintro v rfl
    rfl
  · rintro q rfl
    rfl

/-- Claim C5, witness: selecting the method `mean` writes the settings blob
under the storage key. -/
theorem C5_witness :
    (uiStep (.methodSelect "mean") initialState).2.storageWrites =
      [(storageKey, settingsValue (JsValue.str "mean") (1/2))] :=
  (C5_settings_persistence (.methodSelect "mean") initialState).2.1 "mean" rfl

/-- Claim C2: in every reachable UI state at most one denoise request is in
flight, an outstanding request implies `isProcessing` (raised by the click
before the fetch, lowered only by the `finally` when it completes), and
while a request is outstanding no step can raise the in-flight count — the
Denoise button is disabled whenever `isProcessing` holds, which rules out
the only request-starting step. -/
theorem C2_single_request_in_flight (σ : Sys) (h : Reachable σ) :
    singleFlightInv σ
    ∧ (0 < σ.inFlight → ∀ σ', SysStep σ σ' → σ'.inFlight ≤ σ.inFlight) := by
  have hinv := reachable_singleFlightInv σ h
  refine ⟨hinv, fun hpos σ' hstep => ?_⟩
  cases hstep with
  | mountStep c => exact le_refl _
  | fileSelectStep f u => exact le_refl _
  | methodSelectStep v _ hv => exact le_refl _
  | strengthSlideStep q _ h0 h1 => exact le_refl _
  | denoiseClickStep _ hEnabled =>
    exfalso
    have h1 : σ.inFlight = 1 := le_antisymm hinv.1 hpos
    have hproc := hinv.2 h1
    rw [hEnabled] at hproc
    exact absurd hproc (by decide)
  | denoiseComplete env _ hPending =>
    show σ.inFlight - 1 ≤ σ.inFlight
    omega
  | resetClickStep => exact le_refl _

/-- Claim C2, witness at the initial system state. -/
theorem C2_witness :
    singleFlightInv sysInit
    ∧ (0 < sysInit.inFlight →
        ∀ σ', SysStep sysInit σ' → σ'.inFlight ≤ sysInit.inFlight) :=
  C2_single_request_in_flight sysInit Reachable.init

end ImageDenoiser
